import Mathlib

/-!
Shallow embedding of the interview-candidate lifecycle of the
payday-server backend: the InterviewCandidate mongoose schema
(src/models/InterviewCandidate.js), the InterviewCandidateRepository
(src/repositories/InterviewCandidateRepository.js, a BaseRepository
subclass), and the InterviewCandidateService
(src/services/InterviewCandidateService.js).

Times are modelled as millisecond timestamps (Int).  JS truthiness of the
dynamic payload fields is modelled explicitly (absent values, empty
strings and the number 0 are falsy; arrays, including empty ones, are
truthy).  The document store is a list of candidate documents; mongoose
findByIdAndUpdate / save are modelled as in-place replacement by id.
-/

deriving instance DecidableEq for Except

namespace PaydayServer

/-- The currentStage enum of the InterviewCandidate schema, which is also
the validStages list checked by the service. -/
def validStages : List String :=
  ["screening", "phone-interview", "technical-interview", "final-interview",
   "offer", "rejected", "hired"]

/-- The stage enum of an interview subdocument (the four interview
sub-stages). -/
def interviewStages : List String :=
  ["screening", "phone-interview", "technical-interview", "final-interview"]

/-- The per-interview status enum of the schema. -/
def interviewStatuses : List String :=
  ["scheduled", "completed", "cancelled", "rescheduled"]

/-- The decision.status enum of the schema, which is also the
validDecisions list checked by the service. -/
def validDecisionStatuses : List String :=
  ["pending", "approved", "rejected", "on-hold"]

/-- The offer.status enum of the schema, which is also the validStatuses
list checked by updateOfferStatus. -/
def validOfferStatuses : List String :=
  ["pending", "accepted", "declined", "expired"]

/-- The communications type enum of the schema, which is also the
validTypes list checked by validateCommunicationData. -/
def validCommunicationTypes : List String :=
  ["email", "phone", "in-person", "video"]

/-- The communications status enum of the schema. -/
def communicationStatuses : List String :=
  ["sent", "delivered", "read", "replied"]

/-- One entry of the timeline audit array of the schema. -/
structure TimelineEntry where
  action : String
  date : Int
  performedBy : Option String
  details : Option String
deriving DecidableEq

/-- One entry of the interviews array of the schema.  The stage and
scheduledAt fields are required by the schema but arrive from a dynamic
payload, so they are stored as options; save-time validation rejects a
document in which they are missing. -/
structure Interview where
  stage : Option String
  scheduledAt : Option Int
  duration : Int
  interviewers : List String
  location : String
  meetingLink : Option String
  status : String
  notes : Option String
  feedback : Option String
  rating : Option Int
deriving DecidableEq

/-- The decision subdocument of the schema. -/
structure Decision where
  status : String := "pending"
  madeBy : Option String := none
  madeAt : Option Int := none
  notes : Option String := none
deriving DecidableEq

/-- The offer subdocument of the schema. -/
structure Offer where
  salary : Option Int := none
  currency : String := "USD"
  startDate : Option Int := none
  benefits : List String := []
  status : String := "pending"
  validUntil : Option Int := none
deriving DecidableEq

/-- The skillsAssessment subdocument of the schema. -/
structure SkillsAssessment where
  technical : Option Int := none
  communication : Option Int := none
  problemSolving : Option Int := none
  culturalFit : Option Int := none
deriving DecidableEq

/-- One entry of the communications array of the schema. -/
structure Communication where
  type : String
  date : Int
  subject : Option String
  content : Option String
  initiatedBy : Option String
  status : String := "sent"
deriving DecidableEq

/-- An InterviewCandidate document. -/
structure InterviewCandidate where
  id : Nat
  careerApplication : String
  currentStage : String := "screening"
  interviews : List Interview := []
  overallRating : Option Int := none
  skillsAssessment : SkillsAssessment := {}
  decision : Decision := {}
  offer : Offer := {}
  communications : List Communication := []
  notes : Option String := none
  timeline : List TimelineEntry := []
deriving DecidableEq

/-- The document store: existing CareerApplication ids, the
InterviewCandidate collection, and the id counter for new documents. -/
structure DB where
  applications : List String
  candidates : List InterviewCandidate
  nextId : Nat
deriving DecidableEq

/-- The error outcomes of the service layer.  The source throws plain
Error objects; the constructors record the kind the spec assigns to each
message (notFound for the 404-equivalents, validation for malformed
input, precondition for the offer-stage guard) plus the JS TypeError
raised when a method that does not exist is called. -/
inductive Err where
  | notFound (msg : String)
  | validation (msg : String)
  | precondition (msg : String)
  | typeError (msg : String)
deriving DecidableEq

/-- Neither BaseRepository nor InterviewCandidateRepository defines a
method named update (only updateById exists), so every call of
this.interviewCandidateRepository.update in the service throws a JS
TypeError at runtime. -/
def repoUpdateMissing : Err :=
  .typeError "this.interviewCandidateRepository.update is not a function"

/-- JS truthiness of an optional string (undefined and the empty string
are falsy). -/
def truthyStr : Option String → Bool
  | none => false
  | some s => s != ""

/-- JS truthiness of an optional number (undefined and 0 are falsy). -/
def truthyInt : Option Int → Bool
  | none => false
  | some n => n != 0

/-- JS truthiness of an optional array (any array, even an empty one, is
truthy). -/
def truthyList : Option (List String) → Bool
  | none => false
  | some _ => true

/-- The dynamic payload of scheduleInterview. -/
structure InterviewData where
  stage : Option String := none
  scheduledAt : Option Int := none
  duration : Option Int := none
  interviewers : Option (List String) := none
  location : Option String := none
  meetingLink : Option String := none
deriving DecidableEq

/-- The dynamic payload of addCommunication. -/
structure CommData where
  type : Option String := none
  subject : Option String := none
  content : Option String := none
deriving DecidableEq

/-- The dynamic payload of createOffer. -/
structure OfferData where
  salary : Option Int := none
  currency : Option String := none
  startDate : Option Int := none
  benefits : List String := []
deriving DecidableEq

/-- The dynamic payload of updateSkillsAssessment. -/
structure SkillsData where
  technical : Option Int := none
  communication : Option Int := none
  problemSolving : Option Int := none
  culturalFit : Option Int := none
deriving DecidableEq

/-- InterviewCandidateService.validateInterviewData: the three required
fields are checked for truthiness in order, then the date must be
strictly in the future, then interviewers must be a non-empty array. -/
def validateInterviewData (d : InterviewData) (now : Int) : Option Err :=
  if !truthyStr d.stage then some (.validation "stage is required")
  else if !truthyInt d.scheduledAt then some (.validation "scheduledAt is required")
  else if !truthyList d.interviewers then some (.validation "interviewers is required")
  else if d.scheduledAt.getD 0 ≤ now then
    some (.validation "Interview must be scheduled in the future")
  else if (d.interviewers.getD []).isEmpty then
    some (.validation "At least one interviewer is required")
  else none

/-- InterviewCandidateService.validateCommunicationData. -/
def validateCommunicationData (d : CommData) : Option Err :=
  if !truthyStr d.type then some (.validation "type is required")
  else if !truthyStr d.subject then some (.validation "subject is required")
  else if !truthyStr d.content then some (.validation "content is required")
  else if !(validCommunicationTypes.contains (d.type.getD "")) then
    some (.validation "Invalid communication type")
  else none

/-- One clause of validateSkillsData: a sub-rating is rejected only when
it is truthy and out of range, so an absent value and the value 0 both
pass. -/
def skillRatingBad (v : Option Int) : Bool :=
  truthyInt v && (v.getD 0 < 1 || v.getD 0 > 5)

/-- InterviewCandidateService.validateSkillsData. -/
def validateSkillsData (d : SkillsData) : Option Err :=
  if skillRatingBad d.technical then
    some (.validation "technical rating must be between 1 and 5")
  else if skillRatingBad d.communication then
    some (.validation "communication rating must be between 1 and 5")
  else if skillRatingBad d.problemSolving then
    some (.validation "problemSolving rating must be between 1 and 5")
  else if skillRatingBad d.culturalFit then
    some (.validation "culturalFit rating must be between 1 and 5")
  else none

/-- InterviewCandidateService.validateOfferData: salary and startDate are
checked for truthiness in order, then salary must be positive and
startDate strictly in the future. -/
def validateOfferData (d : OfferData) (now : Int) : Option Err :=
  if !truthyInt d.salary then some (.validation "salary is required")
  else if !truthyInt d.startDate then some (.validation "startDate is required")
  else if d.salary.getD 0 ≤ 0 then some (.validation "Salary must be greater than 0")
  else if d.startDate.getD 0 ≤ now then
    some (.validation "Start date must be in the future")
  else none

/-- Model.findById on the candidate collection. -/
def findCand (db : DB) (cid : Nat) : Option InterviewCandidate :=
  db.candidates.find? fun c => c.id == cid

/-- Writing a candidate document back by id (the effect of save or
findByIdAndUpdate on an existing document). -/
def replaceCand (cs : List InterviewCandidate) (c : InterviewCandidate) :
    List InterviewCandidate :=
  cs.map fun d => if d.id == c.id then c else d

/-- Schema validation of an interview subdocument: stage is required and
must be one of the four interview stages, scheduledAt is required, the
status must be in its enum, and the rating (when present) must lie in
[1,5]. -/
def validInterviewDoc (iv : Interview) : Bool :=
  (match iv.stage with
   | some s => interviewStages.contains s
   | none => false) &&
  iv.scheduledAt.isSome &&
  interviewStatuses.contains iv.status &&
  (match iv.rating with
   | some r => decide (1 ≤ r) && decide (r ≤ 5)
   | none => true)

/-- Schema validation of an optional 1..5 rating field. -/
def ratingInRange : Option Int → Bool
  | none => true
  | some r => decide (1 ≤ r) && decide (r ≤ 5)

/-- Schema validation of a communication subdocument. -/
def validCommunicationDoc (m : Communication) : Bool :=
  validCommunicationTypes.contains m.type && communicationStatuses.contains m.status

/-- Schema validation of a timeline entry: action is a required string,
and mongoose required rejects the empty string. -/
def validTimelineDoc (t : TimelineEntry) : Bool :=
  t.action != ""

/-- Mongoose document validation of an InterviewCandidate, run on save. -/
def validCandidateDoc (c : InterviewCandidate) : Bool :=
  validStages.contains c.currentStage &&
  c.interviews.all validInterviewDoc &&
  ratingInRange c.overallRating &&
  ratingInRange c.skillsAssessment.technical &&
  ratingInRange c.skillsAssessment.communication &&
  ratingInRange c.skillsAssessment.problemSolving &&
  ratingInRange c.skillsAssessment.culturalFit &&
  validDecisionStatuses.contains c.decision.status &&
  validOfferStatuses.contains c.offer.status &&
  c.communications.all validCommunicationDoc &&
  c.timeline.all validTimelineDoc

/-- The timeline entry pushed by the pre-save middleware when
currentStage was modified. -/
def stageChangeEntry (c : InterviewCandidate) (now : Int) : TimelineEntry :=
  { action := "Stage changed to " ++ c.currentStage
    date := now
    performedBy := c.decision.madeBy
    details := none }

/-- The pre-save middleware of the schema: when currentStage is modified,
one extra timeline entry is pushed.  The modified flag mirrors mongoose
isModified on that path. -/
def preSave (c : InterviewCandidate) (modified : Bool) (now : Int) :
    InterviewCandidate :=
  if modified then { c with timeline := c.timeline ++ [stageChangeEntry c now] }
  else c

/-- Saving an existing document: the pre-save middleware runs, then
mongoose validation; a valid document is written back by id, an invalid
one raises a ValidationError and leaves the store unchanged. -/
def saveExisting (db : DB) (c : InterviewCandidate) (stageModified : Bool)
    (now : Int) : DB × Except Err (Option InterviewCandidate) :=
  let c2 := preSave c stageModified now
  if validCandidateDoc c2 then
    ({ db with candidates := replaceCand db.candidates c2 }, .ok (some c2))
  else (db, .error (.validation "InterviewCandidate validation failed"))

/-- Saving a freshly constructed document (BaseRepository.create): on a
new document every set path counts as modified, so the pre-save
middleware always pushes the stage-change entry; a valid document is
appended to the collection. -/
def saveNew (db : DB) (c : InterviewCandidate) (now : Int) :
    DB × Except Err (Option InterviewCandidate) :=
  let c2 := preSave c true now
  if validCandidateDoc c2 then
    ({ db with candidates := db.candidates ++ [c2], nextId := db.nextId + 1 },
     .ok (some c2))
  else (db, .error (.validation "InterviewCandidate validation failed"))

/-- InterviewCandidateService.createFromApplication: NotFound when the
career application id does not exist; when a candidate already exists
for that application it is returned unchanged; otherwise a new candidate
at stage screening with one creation timeline entry is saved (and the
pre-save middleware appends its stage-change entry, since currentStage
is a set path of the new document). -/
def createFromApplication (db : DB) (careerApplicationId : String)
    (userId : Option String) (now : Int) :
    DB × Except Err (Option InterviewCandidate) :=
  if !(db.applications.contains careerApplicationId) then
    (db, .error (.notFound "Career application not found"))
  else
    match db.candidates.find? (fun c => c.careerApplication == careerApplicationId) with
    | some existing => (db, .ok (some existing))
    | none =>
      saveNew db
        { id := db.nextId
          careerApplication := careerApplicationId
          currentStage := "screening"
          timeline := [{ action := "Candidate created from application"
                         date := now
                         performedBy := some (userId.getD "system")
                         details := some "Automatically moved to interview process" }] }
        now

/-- The candidate produced by the schema method scheduleInterview: the
interview record (with the service-supplied status scheduled and the
schema defaults for duration and location) is pushed, together with one
timeline entry. -/
def schedCand (c : InterviewCandidate) (d : InterviewData) (now : Int) :
    InterviewCandidate :=
  { c with
    interviews := c.interviews ++
      [{ stage := d.stage
         scheduledAt := d.scheduledAt
         duration := d.duration.getD 60
         interviewers := d.interviewers.getD []
         location := d.location.getD "TBD"
         meetingLink := d.meetingLink
         status := "scheduled"
         notes := none
         feedback := none
         rating := none }]
    timeline := c.timeline ++
      [{ action := "Interview scheduled for " ++ d.stage.getD ""
         date := now
         performedBy := none
         details := some ("Scheduled for " ++ toString (d.scheduledAt.getD 0)) }] }

/-- InterviewCandidateService.scheduleInterview: payload validation,
then the candidate lookup, then the schema method which pushes the
record and saves.  The repository performs a second findById with the
same result, so a single lookup is modelled.  currentStage is not
touched, so the pre-save middleware does not fire. -/
def scheduleInterview (db : DB) (candidateId : Nat) (d : InterviewData)
    (now : Int) : DB × Except Err (Option InterviewCandidate) :=
  match validateInterviewData d now with
  | some e => (db, .error e)
  | none =>
    match findCand db candidateId with
    | none => (db, .error (.notFound "Interview candidate not found"))
    | some c => saveExisting db (schedCand c d now) false now

/-- The effect of the $set paths of
InterviewCandidateRepository.updateInterviewFeedback on one interview:
feedback and rating are each written only when truthy. -/
def applyFeedback (iv : Interview) (feedback : Option String)
    (rating : Option Int) : Interview :=
  let iv2 := if truthyStr feedback then { iv with feedback := feedback } else iv
  if truthyInt rating then { iv2 with rating := rating } else iv2

/-- The interviews array after the dot-path $set of
updateInterviewFeedback at a given index. -/
def updateFeedbackAt : List Interview → Nat → Option String → Option Int →
    List Interview
  | [], _, _, _ => []
  | iv :: rest, 0, fb, r => applyFeedback iv fb r :: rest
  | iv :: rest, n + 1, fb, r => iv :: updateFeedbackAt rest n fb r

/-- The candidate after the repository $set of updateInterviewFeedback
(no validators run on findByIdAndUpdate here). -/
def feedbackCand (c : InterviewCandidate) (idx : Nat) (feedback : Option String)
    (rating : Option Int) : InterviewCandidate :=
  { c with interviews := updateFeedbackAt c.interviews idx feedback rating }

/-- InterviewCandidateService.updateInterviewFeedback: the range check is
guarded by the truthiness of rating, then candidate and interview
existence are checked, then the repository writes the $set paths; the
service then calls this.interviewCandidateRepository.update to flip the
interview status to completed, and that method does not exist, so a
TypeError is thrown after the partial write. -/
def updateInterviewFeedback (db : DB) (candidateId : Nat) (interviewIndex : Nat)
    (feedback : Option String) (rating : Option Int) :
    DB × Except Err (Option InterviewCandidate) :=
  if truthyInt rating && (rating.getD 0 < 1 || rating.getD 0 > 5) then
    (db, .error (.validation "Rating must be between 1 and 5"))
  else
    match findCand db candidateId with
    | none => (db, .error (.notFound "Interview candidate not found"))
    | some c =>
      if interviewIndex < c.interviews.length then
        ({ db with candidates :=
             replaceCand db.candidates (feedbackCand c interviewIndex feedback rating) },
         .error repoUpdateMissing)
      else (db, .error (.notFound "Interview not found"))

/-- The candidate produced by the schema method updateStage before the
pre-save middleware runs. -/
def stageCand (c : InterviewCandidate) (newStage : String)
    (userId : Option String) (now : Int) : InterviewCandidate :=
  { c with
    currentStage := newStage
    timeline := c.timeline ++
      [{ action := "Stage updated to " ++ newStage
         date := now
         performedBy := userId
         details := none }] }

/-- InterviewCandidateService.updateStage: the enum check, then the
repository lookup (whose own NotFound message is Candidate not found),
then the schema method which overwrites currentStage, pushes one
timeline entry and saves; the pre-save middleware pushes a second entry
exactly when the stage value actually changed. -/
def updateStage (db : DB) (candidateId : Nat) (newStage : String)
    (userId : Option String) (now : Int) :
    DB × Except Err (Option InterviewCandidate) :=
  if !(validStages.contains newStage) then (db, .error (.validation "Invalid stage"))
  else
    match findCand db candidateId with
    | none => (db, .error (.notFound "Candidate not found"))
    | some c =>
      saveExisting db (stageCand c newStage userId now)
        (newStage != c.currentStage) now

/-- The candidate produced by the schema method makeDecision: the
decision subdocument is overwritten wholesale and one timeline entry is
pushed. -/
def decisionCand (c : InterviewCandidate) (decision : String) (notes : String)
    (userId : Option String) (now : Int) : InterviewCandidate :=
  { c with
    decision := { status := decision, madeBy := userId, madeAt := some now,
                  notes := some notes }
    timeline := c.timeline ++
      [{ action := "Decision made: " ++ decision
         date := now
         performedBy := userId
         details := some notes }] }

/-- InterviewCandidateService.makeDecision. -/
def makeDecision (db : DB) (candidateId : Nat) (decision : String)
    (notes : String) (userId : Option String) (now : Int) :
    DB × Except Err (Option InterviewCandidate) :=
  if !(validDecisionStatuses.contains decision) then
    (db, .error (.validation "Invalid decision"))
  else
    match findCand db candidateId with
    | none => (db, .error (.notFound "Candidate not found"))
    | some c => saveExisting db (decisionCand c decision notes userId now) false now

/-- The candidate after the $push of
InterviewCandidateRepository.addCommunication. -/
def candWithComm (c : InterviewCandidate) (d : CommData) (userId : Option String)
    (now : Int) : InterviewCandidate :=
  { c with communications := c.communications ++
      [{ type := d.type.getD ""
         date := now
         subject := d.subject
         content := d.content
         initiatedBy := userId
         status := "sent" }] }

/-- InterviewCandidateService.addCommunication: payload validation, then
the repository $push (findByIdAndUpdate returns null rather than
throwing when the id is absent, and runs no validators).  The timeline
is not touched. -/
def addCommunication (db : DB) (candidateId : Nat) (d : CommData)
    (userId : Option String) (now : Int) :
    DB × Except Err (Option InterviewCandidate) :=
  match validateCommunicationData d with
  | some e => (db, .error e)
  | none =>
    match findCand db candidateId with
    | none => (db, .ok none)
    | some c =>
      ({ db with candidates := replaceCand db.candidates (candWithComm c d userId now) },
       .ok (some (candWithComm c d userId now)))

/-- InterviewCandidateService.updateOverallRating: the range check (not
truthiness-guarded here, so 0 is rejected), then the call of the
nonexistent repository method update, which throws a TypeError before
any lookup or write happens. -/
def updateOverallRating (db : DB) (candidateId : Nat) (rating : Int) :
    DB × Except Err (Option InterviewCandidate) :=
  if rating < 1 || rating > 5 then
    (db, .error (.validation "Rating must be between 1 and 5"))
  else (db, .error repoUpdateMissing)

/-- InterviewCandidateService.updateSkillsAssessment: validateSkillsData,
then the call of the nonexistent repository method update. -/
def updateSkillsAssessment (db : DB) (candidateId : Nat) (d : SkillsData) :
    DB × Except Err (Option InterviewCandidate) :=
  match validateSkillsData d with
  | some e => (db, .error e)
  | none => (db, .error repoUpdateMissing)

/-- InterviewCandidateService.createOffer: payload validation first, then
the candidate lookup, then the final-interview precondition, then the
call of the nonexistent repository method update, which throws a
TypeError before the offer, the stage transition or the timeline entry
can be written. -/
def createOffer (db : DB) (candidateId : Nat) (d : OfferData) (now : Int) :
    DB × Except Err (Option InterviewCandidate) :=
  match validateOfferData d now with
  | some e => (db, .error e)
  | none =>
    match findCand db candidateId with
    | none => (db, .error (.notFound "Interview candidate not found"))
    | some c =>
      if c.currentStage != "final-interview" then
        (db, .error (.precondition "Candidate must be in final interview stage to receive offer"))
      else (db, .error repoUpdateMissing)

/-- InterviewCandidateService.updateOfferStatus: the enum check, then the
call of the nonexistent repository method update, which throws a
TypeError before the offer status, the stage or the decision can be
written. -/
def updateOfferStatus (db : DB) (candidateId : Nat) (status : String) :
    DB × Except Err (Option InterviewCandidate) :=
  if !(validOfferStatuses.contains status) then
    (db, .error (.validation "Invalid offer status"))
  else (db, .error repoUpdateMissing)

/-- One mutating operation of the candidate lifecycle service. -/
inductive Op where
  | createFromApplication (appId : String) (userId : Option String)
  | scheduleInterview (cid : Nat) (d : InterviewData)
  | updateInterviewFeedback (cid : Nat) (idx : Nat) (feedback : Option String)
      (rating : Option Int)
  | updateStage (cid : Nat) (newStage : String) (userId : Option String)
  | makeDecision (cid : Nat) (decision : String) (notes : String)
      (userId : Option String)
  | addCommunication (cid : Nat) (d : CommData) (userId : Option String)
  | updateOverallRating (cid : Nat) (rating : Int)
  | updateSkillsAssessment (cid : Nat) (d : SkillsData)
  | createOffer (cid : Nat) (d : OfferData)
  | updateOfferStatus (cid : Nat) (status : String)

/-- Dispatch of one lifecycle operation against the store. -/
def step (db : DB) (op : Op) (now : Int) :
    DB × Except Err (Option InterviewCandidate) :=
  match op with
  | .createFromApplication appId userId => createFromApplication db appId userId now
  | .scheduleInterview cid d => scheduleInterview db cid d now
  | .updateInterviewFeedback cid idx fb r => updateInterviewFeedback db cid idx fb r
  | .updateStage cid s userId => updateStage db cid s userId now
  | .makeDecision cid dec notes userId => makeDecision db cid dec notes userId now
  | .addCommunication cid d userId => addCommunication db cid d userId now
  | .updateOverallRating cid r => updateOverallRating db cid r
  | .updateSkillsAssessment cid d => updateSkillsAssessment db cid d
  | .createOffer cid d => createOffer db cid d now
  | .updateOfferStatus cid s => updateOfferStatus db cid s

/-- A stored candidate at stage screening with one scheduled interview,
used as a concrete test document. -/
def cand0 : InterviewCandidate :=
  { id := 0
    careerApplication := "A1"
    currentStage := "screening"
    interviews :=
      [{ stage := some "screening"
         scheduledAt := some 100
         duration := 60
         interviewers := ["U1"]
         location := "TBD"
         meetingLink := none
         status := "scheduled"
         notes := none
         feedback := none
         rating := some 4 }]
    timeline :=
      [{ action := "Candidate created from application"
         date := 0
         performedBy := some "system"
         details := some "Automatically moved to interview process" }] }

/-- A stored candidate at stage final-interview, used as a concrete test
document. -/
def candFinal : InterviewCandidate :=
  { id := 1
    careerApplication := "A2"
    currentStage := "final-interview"
    timeline :=
      [{ action := "Stage updated to final-interview"
         date := 10
         performedBy := some "U2"
         details := none }] }

/-- A stored candidate at stage offer with a pending offer, used as a
concrete test document. -/
def candOffer : InterviewCandidate :=
  { id := 2
    careerApplication := "A3"
    currentStage := "offer"
    offer := { salary := some 80000, currency := "USD", startDate := some 99999
               benefits := [], status := "pending", validUntil := some 88888 }
    timeline :=
      [{ action := "Offer created"
         date := 20
         performedBy := some "U2"
         details := some "Offer amount: 80000 USD" }] }

/-- A concrete store: four career applications, three candidates (the
application A4 has no candidate yet). -/
def db0 : DB :=
  { applications := ["A1", "A2", "A3", "A4"]
    candidates := [cand0, candFinal, candOffer]
    nextId := 3 }

/-- The error-kind taxonomy of the spec, as a projection of the embedded
errors. -/
def errKind : Err → String
  | .notFound _ => "NotFound"
  | .validation _ => "ValidationError"
  | .precondition _ => "PreconditionFailed"
  | .typeError _ => "TypeError"

/-- The kind of the error of a service result, when the result is an
error. -/
def errKindOf : Except Err (Option InterviewCandidate) → Option String
  | .error e => some (errKind e)
  | .ok _ => none

/-- A payload that passes validateOfferData for any time up to 999998. -/
def offerOk : OfferData := { salary := some 80000, startDate := some 999999 }

/-- A payload whose salary is negative, hence rejected by
validateOfferData. -/
def offerBad : OfferData := { salary := some (-5), startDate := some 999999 }

/-- An interview payload with a future date and one interviewer but no
stage field. -/
def ivMissingStage : InterviewData :=
  { scheduledAt := some 100, interviewers := some ["U1"] }

/-- An interview payload that passes validateInterviewData for any time
below 5000. -/
def ivOk : InterviewData :=
  { stage := some "technical-interview", scheduledAt := some 5000,
    interviewers := some ["U1", "U5"] }

/-- A communication payload that passes validateCommunicationData. -/
def commOk : CommData :=
  { type := some "email", subject := some "Interview", content := some "Details" }

/-- The result of the schema method updateStage followed by the pre-save
middleware: the stage is overwritten, one Stage-updated entry is pushed
by the method, and the middleware pushes a second Stage-changed entry
exactly when the value differs from the previous stage. -/
def stagedCand (c : InterviewCandidate) (s : String) (userId : Option String)
    (now : Int) : InterviewCandidate :=
  preSave (stageCand c s userId now) (s != c.currentStage) now

/-- C1: the spec says updateOfferStatus with status accepted moves the
candidate to currentStage hired with decision.status approved (and
declined moves it to rejected with decision rejected), setting
decision.madeBy and madeAt.  The code cannot do any of this: after the
enum check it calls this.interviewCandidateRepository.update, a method
that exists on no repository class (BaseRepository only has updateById),
so both calls throw a TypeError and the store is untouched: the
candidate at stage offer stays at stage offer with decision pending. -/
theorem updateOfferStatus_throws_typeError :
    updateOfferStatus db0 2 "accepted" = (db0, .error repoUpdateMissing) ∧
    updateOfferStatus db0 2 "declined" = (db0, .error repoUpdateMissing) ∧
    (findCand db0 2).map (fun c => c.currentStage) = some "offer" ∧
    (findCand db0 2).map (fun c => c.decision.status) = some "pending" ∧
    (findCand db0 2).map (fun c => c.decision.madeBy) = some none ∧
    errKind repoUpdateMissing = "TypeError" :=
  ⟨rfl, rfl, rfl, rfl, rfl, rfl⟩

/-- C7: the spec says createOffer on a candidate at stage final-interview
with a valid payload records a pending offer with validUntil seven days
out, moves the stage to offer and appends a timeline entry.  The code
passes validation and the stage precondition but then calls the
nonexistent repository method update, so a TypeError is thrown and
nothing is written: the candidate keeps stage final-interview, no offer
salary, and its previous timeline. -/
theorem createOffer_final_stage_throws_typeError :
    createOffer db0 1 offerOk 1000 = (db0, .error repoUpdateMissing) ∧
    (findCand db0 1).map (fun c => c.currentStage) = some "final-interview" ∧
    (findCand db0 1).map (fun c => c.offer.salary) = some none ∧
    (findCand db0 1).map (fun c => c.offer.validUntil) = some none ∧
    (findCand db0 1).map (fun c => c.timeline.length) = some 1 ∧
    errKind repoUpdateMissing = "TypeError" :=
  ⟨rfl, rfl, rfl, rfl, rfl, rfl⟩

/-- C8: the spec says rating writes outside [1,5] fail with
ValidationError and boundary writes of 1 and 5 succeed.  Out-of-range
writes of overallRating are indeed rejected (0 and 6 below), but the
boundary writes 1 and 5 do not succeed: after passing validation the
service calls the nonexistent repository method update and throws a
TypeError.  Moreover a skillsAssessment sub-rating of 0 is not rejected
at all, because validateSkillsData guards the range check by JS
truthiness and 0 is falsy, so that call also reaches the TypeError
instead of failing with the range ValidationError. -/
theorem rating_boundary_writes_throw_typeError :
    updateOverallRating db0 0 5 = (db0, .error repoUpdateMissing) ∧
    updateOverallRating db0 0 1 = (db0, .error repoUpdateMissing) ∧
    updateOverallRating db0 0 0 =
      (db0, .error (.validation "Rating must be between 1 and 5")) ∧
    updateOverallRating db0 0 6 =
      (db0, .error (.validation "Rating must be between 1 and 5")) ∧
    updateSkillsAssessment db0 0 { technical := some 0 } =
      (db0, .error repoUpdateMissing) ∧
    errKind repoUpdateMissing ≠ "ValidationError" :=
  ⟨rfl, rfl, rfl, rfl, rfl, by decide⟩

/-- C2, counterexample: the claim says createOffer on a candidate whose
currentStage is not final-interview fails with PreconditionFailed
regardless of payload validity.  But validateOfferData runs before the
stage check, so with an invalid payload (negative salary) on the
screening-stage candidate the call fails with a ValidationError, not
with PreconditionFailed. -/
theorem createOffer_wrong_stage_invalid_payload_cex :
    (findCand db0 0).map (fun c => c.currentStage) = some "screening" ∧
    createOffer db0 0 offerBad 0 =
      (db0, .error (.validation "Salary must be greater than 0")) ∧
    errKindOf (createOffer db0 0 offerBad 0).2 = some "ValidationError" ∧
    "ValidationError" ≠ "PreconditionFailed" :=
  ⟨rfl, rfl, rfl, by decide⟩

/-- C4, counterexample: the claim says scheduleInterview succeeds for
every payload with a strictly future scheduledAt and a non-empty
interviewers list.  A payload meeting both conditions but missing the
stage field is rejected by validateInterviewData with a
ValidationError instead. -/
theorem scheduleInterview_missing_stage_cex :
    scheduleInterview db0 0 ivMissingStage 5 =
      (db0, .error (.validation "stage is required")) ∧
    (100 : Int) > 5 ∧ ivMissingStage.interviewers = some ["U1"] :=
  ⟨rfl, by decide, rfl⟩

/-- C5, counterexample: the claim says updateStage appends exactly one
timeline entry.  When the new stage differs from the current one, the
schema method pushes one Stage-updated entry and the pre-save middleware
pushes a second Stage-changed entry, so the timeline grows by two. -/
theorem updateStage_two_timeline_entries_cex :
    (updateStage db0 0 "offer" (some "U9") 5).2 =
      .ok (some (stagedCand cand0 "offer" (some "U9") 5)) ∧
    cand0.timeline.length = 1 ∧
    (stagedCand cand0 "offer" (some "U9") 5).timeline.length = 3 :=
  ⟨rfl, rfl, rfl⟩

theorem validateOfferData_kind (d : OfferData) (now : Int) (e : Err)
    (h : validateOfferData d now = some e) : errKind e = "ValidationError" := by
  unfold validateOfferData at h
  repeat' split at h
  all_goals first
    | (injection h with h2; subst h2; rfl)
    | injection h

theorem validateInterviewData_kind (d : InterviewData) (now : Int) (e : Err)
    (h : validateInterviewData d now = some e) : errKind e = "ValidationError" := by
  unfold validateInterviewData at h
  repeat' split at h
  all_goals first
    | (injection h with h2; subst h2; rfl)
    | injection h

theorem validateInterviewData_past (d : InterviewData) (now t : Int)
    (hs : d.scheduledAt = some t) (hlt : t < now) :
    validateInterviewData d now ≠ none := by
  unfold validateInterviewData
  repeat' split
  all_goals simp_all
  omega

theorem errKind_validation (msg : String) :
    errKind (.validation msg) = "ValidationError" := rfl

theorem truthy_of_mem_interviewStages (s : String) (h : s ∈ interviewStages) :
    (s != "") = true := by
  fin_cases h <;> decide

theorem truthy_of_mem_validCommunicationTypes (s : String)
    (h : s ∈ validCommunicationTypes) : (s != "") = true := by
  fin_cases h <;> decide

theorem contains_of_mem_validCommunicationTypes (s : String)
    (h : s ∈ validCommunicationTypes) :
    validCommunicationTypes.contains s = true := by
  simpa [validCommunicationTypes] using h

/-- C2, amended: createOffer on an existing candidate whose currentStage
is not final-interview fails with PreconditionFailed whenever the
payload passes offer validation (truthy positive salary, truthy strictly
future start date); with a payload that offer validation rejects it
fails with that ValidationError instead, because validation runs before
the stage check. -/
theorem createOffer_wrong_stage_amended
    (db : DB) (cid : Nat) (c : InterviewCandidate) (dGood dBad : OfferData)
    (now sal t : Int) (e : Err)
    (hc : findCand db cid = some c) (hstage : c.currentStage ≠ "final-interview")
    (hnow : 0 ≤ now)
    (hsal : dGood.salary = some sal) (hpos : 0 < sal)
    (hsd : dGood.startDate = some t) (hfut : now < t)
    (hbad : validateOfferData dBad now = some e) :
    createOffer db cid dGood now =
      (db, .error (.precondition "Candidate must be in final interview stage to receive offer")) ∧
    createOffer db cid dBad now = (db, .error e) ∧
    errKind e = "ValidationError" := by
  have hval : validateOfferData dGood now = none := by
    unfold validateOfferData
    rw [hsal, hsd]
    have h1 : truthyInt (some sal) = true := by
      simp [truthyInt, bne_iff_ne]; omega
    have h2 : truthyInt (some t) = true := by
      simp [truthyInt, bne_iff_ne]; omega
    rw [h1, h2]
    simp only [Bool.not_true, Bool.false_eq_true, if_false, Option.getD_some]
    rw [if_neg (by omega), if_neg (by omega)]
  refine ⟨?_, ?_, validateOfferData_kind dBad now e hbad⟩
  · simp only [createOffer, hval, hc]
    simp [bne_iff_ne, hstage]
  · simp only [createOffer, hbad]

theorem preSave_false (c : InterviewCandidate) (now : Int) :
    preSave c false now = c := rfl

theorem validCandidateDoc_update (c : InterviewCandidate) (s : String)
    (ivs : List Interview) (tls : List TimelineEntry)
    (hvc : validCandidateDoc c = true) (hs : validStages.contains s = true)
    (hiv : ivs.all validInterviewDoc = true)
    (htl : tls.all validTimelineDoc = true) :
    validCandidateDoc
      { c with
        currentStage := s
        interviews := c.interviews ++ ivs
        timeline := c.timeline ++ tls } = true := by
  simp only [validCandidateDoc, Bool.and_eq_true, List.all_append] at hvc ⊢
  simp_all

theorem contains_stage_of_valid (c : InterviewCandidate)
    (hvc : validCandidateDoc c = true) :
    validStages.contains c.currentStage = true := by
  unfold validCandidateDoc at hvc
  simp only [Bool.and_eq_true] at hvc
  tauto

/-- C2, witness for the amended theorem at a concrete store: the
screening-stage candidate with a valid payload gets the precondition
error, and with the negative-salary payload gets the ValidationError. -/
theorem createOffer_wrong_stage_amended_witness :
    createOffer db0 0 offerOk 0 =
      (db0, .error (.precondition "Candidate must be in final interview stage to receive offer")) ∧
    createOffer db0 0 offerBad 0 =
      (db0, .error (.validation "Salary must be greater than 0")) ∧
    errKind (.validation "Salary must be greater than 0") = "ValidationError" :=
  createOffer_wrong_stage_amended db0 0 cand0 offerOk offerBad 0 80000 999999
    (.validation "Salary must be greater than 0") rfl (by decide) (by decide)
    rfl (by decide) rfl (by decide) rfl

/-- C4, amended: for an existing (schema-valid) candidate,
scheduleInterview with a scheduledAt in the past always fails with a
ValidationError and leaves the store unchanged; with a stage from the
interview-stage enum, a strictly future scheduledAt and a non-empty
interviewers list it succeeds, appends exactly one interview record
whose sub-status is scheduled, appends exactly one timeline entry, and
does not change currentStage. -/
theorem scheduleInterview_amended
    (db : DB) (cid : Nat) (c : InterviewCandidate) (dPast dOk : InterviewData)
    (now tp t : Int) (s : String) (l : List String)
    (hpast : dPast.scheduledAt = some tp) (htp : tp < now)
    (hc : findCand db cid = some c) (hvc : validCandidateDoc c = true)
    (hnow : 0 ≤ now)
    (hst : dOk.stage = some s) (hsmem : s ∈ interviewStages)
    (hsched : dOk.scheduledAt = some t) (hfut : now < t)
    (hil : dOk.interviewers = some l) (hne : l ≠ []) :
    errKindOf (scheduleInterview db cid dPast now).2 = some "ValidationError" ∧
    (scheduleInterview db cid dPast now).1 = db ∧
    scheduleInterview db cid dOk now =
      ({ db with candidates := replaceCand db.candidates (schedCand c dOk now) },
       .ok (some (schedCand c dOk now))) ∧
    (schedCand c dOk now).currentStage = c.currentStage ∧
    (schedCand c dOk now).interviews.length = c.interviews.length + 1 ∧
    ((schedCand c dOk now).interviews.getLast?).map (fun iv => iv.status) =
      some "scheduled" ∧
    (schedCand c dOk now).timeline.length = c.timeline.length + 1 ∧
    c.interviews <+: (schedCand c dOk now).interviews ∧
    c.timeline <+: (schedCand c dOk now).timeline := by
  have hpastSome : ∃ e, validateInterviewData dPast now = some e := by
    rcases hv : validateInterviewData dPast now with _ | e
    · exact absurd hv (validateInterviewData_past dPast now tp hpast htp)
    · exact ⟨e, rfl⟩
  obtain ⟨e, he⟩ := hpastSome
  have hval : validateInterviewData dOk now = none := by
    unfold validateInterviewData
    rw [hst, hsched, hil]
    have h1 : truthyStr (some s) = true := truthy_of_mem_interviewStages s hsmem
    have h2 : truthyInt (some t) = true := by
      simp [truthyInt, bne_iff_ne]; omega
    have h3 : l.isEmpty = false := by
      cases l with
      | nil => exact absurd rfl hne
      | cons a t2 => rfl
    simp only [truthyStr, truthyInt, truthyList] at *
    rw [h1, h2]
    simp only [Bool.not_true, Bool.false_eq_true, if_false, Option.getD_some]
    rw [if_neg (by omega)]
    simp [h3]
  have hdoc : validCandidateDoc (schedCand c dOk now) = true := by
    have hcontains : interviewStages.contains s = true := by
      simpa [interviewStages] using hsmem
    have hsch : interviewStatuses.contains "scheduled" = true := by decide
    have hiv : ([{ stage := dOk.stage
                   scheduledAt := dOk.scheduledAt
                   duration := dOk.duration.getD 60
                   interviewers := dOk.interviewers.getD []
                   location := dOk.location.getD "TBD"
                   meetingLink := dOk.meetingLink
                   status := "scheduled"
                   notes := none
                   feedback := none
                   rating := none }] : List Interview).all validInterviewDoc = true := by
      simp only [List.all_cons, List.all_nil, Bool.and_true, validInterviewDoc]
      rw [hst, hsched]
      simp
      exact ⟨hsmem, by decide⟩
    have htl : ([{ action := "Interview scheduled for " ++ dOk.stage.getD ""
                   date := now
                   performedBy := none
                   details := some ("Scheduled for " ++ toString (dOk.scheduledAt.getD 0))
                 }] : List TimelineEntry).all validTimelineDoc = true := by
      simp only [List.all_cons, List.all_nil, Bool.and_true, validTimelineDoc]
      rw [hst]
      fin_cases hsmem <;> decide
    have := validCandidateDoc_update c c.currentStage _ _ hvc
      (contains_stage_of_valid c hvc) hiv htl
    exact this
  refine ⟨?_, ?_, ?_, rfl, ?_, ?_, ?_, ?_, ?_⟩
  · simp only [scheduleInterview, he, errKindOf]
    rw [validateInterviewData_kind dPast now e he]
  · simp only [scheduleInterview, he]
  · simp only [scheduleInterview, hval, hc, saveExisting, preSave_false, hdoc]
    simp
  · simp [schedCand]
  · simp [schedCand, List.getLast?_concat]
  · simp [schedCand]
  · exact List.prefix_append _ _
  · exact List.prefix_append _ _

/-- C4, witness for the amended theorem at a concrete store: the past
payload is rejected with a ValidationError and the valid payload appends
one scheduled interview and one timeline entry without touching the
stage. -/
theorem scheduleInterview_amended_witness :
    errKindOf (scheduleInterview db0 0 ivMissingStage 200).2 = some "ValidationError" ∧
    (scheduleInterview db0 0 ivMissingStage 200).1 = db0 ∧
    scheduleInterview db0 0 ivOk 200 =
      ({ db0 with candidates := replaceCand db0.candidates (schedCand cand0 ivOk 200) },
       .ok (some (schedCand cand0 ivOk 200))) ∧
    (schedCand cand0 ivOk 200).currentStage = cand0.currentStage ∧
    (schedCand cand0 ivOk 200).interviews.length = cand0.interviews.length + 1 ∧
    ((schedCand cand0 ivOk 200).interviews.getLast?).map (fun iv => iv.status) =
      some "scheduled" ∧
    (schedCand cand0 ivOk 200).timeline.length = cand0.timeline.length + 1 ∧
    cand0.interviews <+: (schedCand cand0 ivOk 200).interviews ∧
    cand0.timeline <+: (schedCand cand0 ivOk 200).timeline :=
  scheduleInterview_amended db0 0 cand0 ivMissingStage ivOk 200 100 5000
    "technical-interview" ["U1", "U5"] rfl (by decide) rfl (by decide) (by decide)
    rfl (by decide) rfl (by decide) rfl (by decide)

theorem preSave_currentStage (c : InterviewCandidate) (m : Bool) (now : Int) :
    (preSave c m now).currentStage = c.currentStage := by
  unfold preSave; split <;> rfl

theorem preSave_communications (c : InterviewCandidate) (m : Bool) (now : Int) :
    (preSave c m now).communications = c.communications := by
  unfold preSave; split <;> rfl

theorem preSave_id (c : InterviewCandidate) (m : Bool) (now : Int) :
    (preSave c m now).id = c.id := by
  unfold preSave; split <;> rfl

theorem preSave_interviews (c : InterviewCandidate) (m : Bool) (now : Int) :
    (preSave c m now).interviews = c.interviews := by
  unfold preSave; split <;> rfl

theorem preSave_careerApplication (c : InterviewCandidate) (m : Bool) (now : Int) :
    (preSave c m now).careerApplication = c.careerApplication := by
  unfold preSave; split <;> rfl

theorem preSave_timeline_grows (c : InterviewCandidate) (m : Bool) (now : Int) :
    c.timeline <+: (preSave c m now).timeline := by
  unfold preSave
  split
  · exact List.prefix_append _ _
  · exact List.prefix_rfl

theorem validCandidateDoc_preSave (c : InterviewCandidate) (m : Bool) (now : Int)
    (hvc : validCandidateDoc c = true)
    (ha : (("Stage changed to " ++ c.currentStage) != "") = true) :
    validCandidateDoc (preSave c m now) = true := by
  unfold preSave
  split
  · have := validCandidateDoc_update c c.currentStage [] [stageChangeEntry c now]
      hvc (contains_stage_of_valid c hvc) (by simp)
      (by simp only [List.all_cons, List.all_nil, Bool.and_true, validTimelineDoc,
            stageChangeEntry]
          exact ha)
    simpa using this
  · exact hvc

/-- C5, amended: updateStage with a newStage outside the enum fails with
ValidationError; with a newStage in the enum on an existing
(schema-valid) candidate it unconditionally overwrites currentStage and
appends one Stage-updated timeline entry, and the pre-save middleware
appends a second Stage-changed entry exactly when the new stage differs
from the previous one — so the timeline grows by two entries on an
actual change and by one when the stage is rewritten to its current
value. -/
theorem updateStage_amended
    (db : DB) (cid : Nat) (c : InterviewCandidate) (sBad sOk : String)
    (userId : Option String) (now : Int)
    (hbad : sBad ∉ validStages)
    (hc : findCand db cid = some c) (hvc : validCandidateDoc c = true)
    (hok : sOk ∈ validStages) :
    updateStage db cid sBad userId now = (db, .error (.validation "Invalid stage")) ∧
    updateStage db cid sOk userId now =
      ({ db with candidates := replaceCand db.candidates (stagedCand c sOk userId now) },
       .ok (some (stagedCand c sOk userId now))) ∧
    (stagedCand c sOk userId now).currentStage = sOk ∧
    c.timeline <+: (stagedCand c sOk userId now).timeline ∧
    (stagedCand c sOk userId now).timeline.length =
      c.timeline.length + (if sOk = c.currentStage then 1 else 2) ∧
    (stagedCand c sOk userId now).communications = c.communications := by
  have hcon0 : validStages.contains sBad = false := by
    simpa [validStages] using hbad
  have hcon : validStages.contains sOk = true := by
    simpa [validStages] using hok
  have he1 : (("Stage updated to " ++ sOk) != "") = true := by
    fin_cases hok <;> decide
  have he2 : (("Stage changed to " ++ sOk) != "") = true := by
    fin_cases hok <;> decide
  have h1 : validCandidateDoc (stageCand c sOk userId now) = true := by
    have := validCandidateDoc_update c sOk []
      [{ action := "Stage updated to " ++ sOk
         date := now
         performedBy := userId
         details := none }] hvc hcon (by simp)
      (by simp only [List.all_cons, List.all_nil, Bool.and_true, validTimelineDoc]
          exact he1)
    simpa [stageCand] using this
  have hdoc : validCandidateDoc (stagedCand c sOk userId now) = true := by
    unfold stagedCand
    exact validCandidateDoc_preSave _ _ now h1 (by simpa [stageCand] using he2)
  refine ⟨?_, ?_, ?_, ?_, ?_, ?_⟩
  · simp only [updateStage, hcon0, Bool.not_false, if_true]
  · have hdoc2 : validCandidateDoc
        (preSave (stageCand c sOk userId now) (sOk != c.currentStage) now) = true := hdoc
    simp only [updateStage, hcon, Bool.not_true, Bool.false_eq_true, if_false, hc,
      saveExisting, hdoc2, if_true]
    rfl
  · unfold stagedCand
    rw [preSave_currentStage]
    rfl
  · unfold stagedCand
    have hpre : c.timeline <+: (stageCand c sOk userId now).timeline := by
      unfold stageCand
      exact List.prefix_append _ _
    exact hpre.trans (preSave_timeline_grows _ _ _)
  · unfold stagedCand preSave
    rcases hb : (sOk != c.currentStage) with _ | _
    · have hbe : sOk = c.currentStage := by simpa [bne_iff_ne] using hb
      simp [hbe, stageCand]
    · have hbe : ¬(sOk = c.currentStage) := by simpa [bne_iff_ne] using hb
      simp [hbe, stageCand, stageChangeEntry]
  · unfold stagedCand
    rw [preSave_communications]
    rfl

/-- C5, witness for the amended theorem at a concrete store: the bogus
stage is rejected; moving the screening candidate to offer overwrites
the stage and grows the timeline by two entries. -/
theorem updateStage_amended_witness :
    updateStage db0 0 "bogus" (some "U9") 5 =
      (db0, .error (.validation "Invalid stage")) ∧
    updateStage db0 0 "offer" (some "U9") 5 =
      ({ db0 with candidates := replaceCand db0.candidates (stagedCand cand0 "offer" (some "U9") 5) },
       .ok (some (stagedCand cand0 "offer" (some "U9") 5))) ∧
    (stagedCand cand0 "offer" (some "U9") 5).currentStage = "offer" ∧
    cand0.timeline <+: (stagedCand cand0 "offer" (some "U9") 5).timeline ∧
    (stagedCand cand0 "offer" (some "U9") 5).timeline.length =
      cand0.timeline.length + (if "offer" = cand0.currentStage then 1 else 2) ∧
    (stagedCand cand0 "offer" (some "U9") 5).communications = cand0.communications :=
  updateStage_amended db0 0 cand0 "bogus" "offer" (some "U9") 5 (by decide) rfl
    (by decide) (by decide)

theorem find?_concat_of_none {α : Type} (p : α → Bool) (xs : List α) (x : α)
    (hx : p x = true) (h : xs.find? p = none) : (xs ++ [x]).find? p = some x := by
  induction xs with
  | nil => simp [List.find?, hx]
  | cons a t ih =>
    rw [List.find?] at h
    rcases hpa : p a with _ | _
    · simp only [List.cons_append, List.find?, hpa]
      exact ih (by rwa [hpa] at h)
    · rw [hpa] at h
      cases h

/-- C3: createFromApplication is idempotent.  Whenever a call for an
application id returns a candidate, an immediate second call for the
same id returns exactly the same candidate and leaves the store
untouched (no second InterviewCandidate is created for that
application), because the service looks the candidate up by
careerApplication before creating; and a call for an application id that
does not exist fails with the NotFound error. -/
theorem createFromApplication_idempotent
    (db db1 : DB) (appId appBad : String) (userId : Option String)
    (now now2 : Int) (c : InterviewCandidate)
    (h1 : createFromApplication db appId userId now = (db1, Except.ok (some c)))
    (hbad : appBad ∉ db.applications) :
    createFromApplication db1 appId userId now2 = (db1, Except.ok (some c)) ∧
    createFromApplication db appBad userId now =
      (db, .error (.notFound "Career application not found")) := by
  have hbadcon : db.applications.contains appBad = false := by
    simpa using hbad
  refine ⟨?_, ?_⟩
  swap
  · simp only [createFromApplication, hbadcon, Bool.not_false, if_true]
  unfold createFromApplication at h1
  split at h1
  next hcon =>
    exact absurd (congrArg Prod.snd h1) (by simp)
  next hcon =>
    have hcon2 : db.applications.contains appId = true := by
      simpa using hcon
    split at h1
    next existing hfind =>
      injection h1 with hA hB
      subst hA
      injection hB with hB2
      injection hB2 with hB3
      subst hB3
      simp only [createFromApplication, hcon2, Bool.not_true, Bool.false_eq_true,
        if_false, hfind]
    next hfind =>
      simp only [saveNew] at h1
      split at h1
      next hdocv =>
        injection h1 with hA hB
        subst hA
        injection hB with hB2
        injection hB2 with hB3
        subst hB3
        simp only [createFromApplication, hcon2, Bool.not_true, Bool.false_eq_true,
          if_false]
        rw [find?_concat_of_none _ _ _ (by simp [preSave]) hfind]
      next hdocv =>
        exact absurd (congrArg Prod.snd h1) (by simp)

/-- C3, witness at a concrete store: a first call for application A1
returns the stored candidate, the second call returns the same candidate
with the store unchanged, and a call for a missing application id fails
with NotFound. -/
theorem createFromApplication_idempotent_witness :
    createFromApplication db0 "A1" (some "U1") 7 = (db0, Except.ok (some cand0)) ∧
    createFromApplication db0 "ZZZ" (some "U1") 3 =
      (db0, .error (.notFound "Career application not found")) := by
  have h := createFromApplication_idempotent db0 db0 "A1" "ZZZ" (some "U1") 3 7
    cand0 rfl (by decide)
  exact ⟨h.1, h.2⟩

/-- C9: addCommunication with a valid payload (type in the enum, subject
and content present) on an existing candidate appends exactly one entry
to communications and leaves the timeline (and the stage) unchanged —
the deliberate asymmetry of the source: no timeline entry is written. -/
theorem addCommunication_appends_no_timeline
    (db : DB) (cid : Nat) (c : InterviewCandidate) (d : CommData)
    (userId : Option String) (now : Int) (ty : String)
    (hc : findCand db cid = some c)
    (hty : d.type = some ty) (hmem : ty ∈ validCommunicationTypes)
    (hsub : truthyStr d.subject = true) (hcont : truthyStr d.content = true) :
    addCommunication db cid d userId now =
      ({ db with candidates := replaceCand db.candidates (candWithComm c d userId now) },
       Except.ok (some (candWithComm c d userId now))) ∧
    (candWithComm c d userId now).communications.length =
      c.communications.length + 1 ∧
    c.communications <+: (candWithComm c d userId now).communications ∧
    (candWithComm c d userId now).timeline = c.timeline ∧
    (candWithComm c d userId now).currentStage = c.currentStage := by
  have hval : validateCommunicationData d = none := by
    unfold validateCommunicationData
    rw [hty]
    have h1 : truthyStr (some ty) = true :=
      truthy_of_mem_validCommunicationTypes ty hmem
    rw [h1, hsub, hcont]
    simp only [Bool.not_true, Bool.false_eq_true, if_false, Option.getD_some]
    simp only [List.contains_eq_any_beq]
    simpa using hmem
  refine ⟨?_, by simp [candWithComm], List.prefix_append _ _, rfl, rfl⟩
  simp only [addCommunication, hval, hc]

/-- C9, witness at a concrete store: an email communication is appended
to the screening candidate and its timeline stays exactly as it was. -/
theorem addCommunication_appends_no_timeline_witness :
    addCommunication db0 0 commOk (some "U7") 50 =
      ({ db0 with candidates := replaceCand db0.candidates (candWithComm cand0 commOk (some "U7") 50) },
       Except.ok (some (candWithComm cand0 commOk (some "U7") 50))) ∧
    (candWithComm cand0 commOk (some "U7") 50).communications.length =
      cand0.communications.length + 1 ∧
    cand0.communications <+: (candWithComm cand0 commOk (some "U7") 50).communications ∧
    (candWithComm cand0 commOk (some "U7") 50).timeline = cand0.timeline ∧
    (candWithComm cand0 commOk (some "U7") 50).currentStage = cand0.currentStage :=
  addCommunication_appends_no_timeline db0 0 cand0 commOk (some "U7") 50 "email"
    rfl rfl (by decide) (by decide) (by decide)

theorem updateFeedbackAt_map_rating (ivs : List Interview) (idx : Nat)
    (fb : Option String) (r : Option Int) (hr : truthyInt r = false) :
    (updateFeedbackAt ivs idx fb r).map (fun iv => iv.rating) =
      ivs.map (fun iv => iv.rating) := by
  induction ivs generalizing idx with
  | nil => rfl
  | cons iv rest ih =>
    cases idx with
    | zero =>
      simp only [updateFeedbackAt, List.map_cons]
      congr 1
      simp only [applyFeedback, hr, Bool.false_eq_true, if_false]
      split <;> rfl
    | succ n =>
      simp only [updateFeedbackAt, List.map_cons]
      rw [ih n]

/-- C10: the rating-range guard of updateInterviewFeedback is truthiness
protected, so a rating of 0 (outside [1,5]) does not raise the range
ValidationError; the repository likewise skips the falsy rating in its
$set, so the stored ratings are unchanged (the call then fails with the
TypeError of the missing repository method update, not with the range
error).  Similarly validateSkillsData accepts a sub-rating of 0, so
updateSkillsAssessment with technical = 0 also reaches the TypeError
rather than the range ValidationError. -/
theorem zero_rating_bypasses_range_check
    (db : DB) (cid : Nat) (c : InterviewCandidate) (idx : Nat)
    (fb : Option String) (d : SkillsData)
    (hc : findCand db cid = some c) (hidx : idx < c.interviews.length)
    (ht : d.technical = some 0)
    (h2 : skillRatingBad d.communication = false)
    (h3 : skillRatingBad d.problemSolving = false)
    (h4 : skillRatingBad d.culturalFit = false) :
    updateInterviewFeedback db cid idx fb (some 0) =
      ({ db with candidates := replaceCand db.candidates (feedbackCand c idx fb (some 0)) },
       .error repoUpdateMissing) ∧
    (feedbackCand c idx fb (some 0)).interviews.map (fun iv => iv.rating) =
      c.interviews.map (fun iv => iv.rating) ∧
    updateSkillsAssessment db cid d = (db, .error repoUpdateMissing) ∧
    errKind repoUpdateMissing ≠ "ValidationError" := by
  refine ⟨?_, ?_, ?_, by decide⟩
  · simp only [updateInterviewFeedback]
    rw [show truthyInt (some 0) = false from rfl]
    simp only [Bool.false_and, Bool.false_eq_true, if_false, hc]
    rw [if_pos hidx]
  · unfold feedbackCand
    exact updateFeedbackAt_map_rating c.interviews idx fb (some 0) rfl
  · simp only [updateSkillsAssessment, validateSkillsData, ht]
    rw [show skillRatingBad (some 0) = false from rfl]
    simp [h2, h3, h4]

/-- C10, witness at a concrete store: the screening candidate has an
interview at index 0 with stored rating 4; feedback with rating 0 does
not raise the range error and leaves every stored rating unchanged, and
a skills assessment with technical 0 also passes validation. -/
theorem zero_rating_bypasses_range_check_witness :
    updateInterviewFeedback db0 0 0 (some "Solid") (some 0) =
      ({ db0 with candidates := replaceCand db0.candidates (feedbackCand cand0 0 (some "Solid") (some 0)) },
       .error repoUpdateMissing) ∧
    (feedbackCand cand0 0 (some "Solid") (some 0)).interviews.map (fun iv => iv.rating) =
      cand0.interviews.map (fun iv => iv.rating) ∧
    updateSkillsAssessment db0 0 { technical := some 0 } =
      (db0, .error repoUpdateMissing) ∧
    errKind repoUpdateMissing ≠ "ValidationError" :=
  zero_rating_bypasses_range_check db0 0 cand0 0 (some "Solid")
    { technical := some 0 } rfl (by decide) rfl rfl rfl rfl

theorem findCand_id (db : DB) (cid : Nat) (c : InterviewCandidate)
    (h : findCand db cid = some c) : c.id = cid := by
  have := List.find?_some h
  simpa using this

theorem find?_append_of_some {α : Type} (p : α → Bool) (xs ys : List α) (x : α)
    (h : xs.find? p = some x) : (xs ++ ys).find? p = some x := by
  induction xs with
  | nil => cases h
  | cons a t ih =>
    rcases hpa : p a with _ | _
    · rw [List.find?_cons_of_neg _ (by simp [hpa])] at h
      simp only [List.cons_append]
      rw [List.find?_cons_of_neg _ (by simp [hpa])]
      exact ih h
    · rw [List.find?_cons_of_pos _ (by simp [hpa])] at h
      simp only [List.cons_append]
      rw [List.find?_cons_of_pos _ (by simp [hpa])]
      exact h

theorem find?_replace (cs : List InterviewCandidate) (cid : Nat)
    (c c2 : InterviewCandidate)
    (hc : cs.find? (fun d => d.id == cid) = some c) :
    (replaceCand cs c2).find? (fun d => d.id == cid) =
      some (if c.id == c2.id then c2 else c) := by
  induction cs with
  | nil => cases hc
  | cons a t ih =>
    rcases hpa : (a.id == cid) with _ | _
    · rw [List.find?_cons_of_neg _ (by simp [hpa])] at hc
      simp only [replaceCand, List.map_cons]
      have hhead : (((if a.id == c2.id then c2 else a)).id == cid) = false := by
        rcases hac : (a.id == c2.id) with _ | _
        · simpa [hac] using hpa
        · have ha2 : a.id = c2.id := by simpa using hac
          simp only [hac, if_true]
          rw [← ha2]
          exact hpa
      rw [List.find?_cons_of_neg _ (by simpa using hhead)]
      exact ih hc
    · rw [List.find?_cons_of_pos _ (by simp [hpa])] at hc
      injection hc with hac
      subst hac
      simp only [replaceCand, List.map_cons]
      rcases hac2 : (a.id == c2.id) with _ | _
      · rw [List.find?_cons_of_pos _ (by simp [hac2, hpa])]
      · have ha2 : a.id = c2.id := by simpa using hac2
        rw [List.find?_cons_of_pos _ (by simp [hac2, ← ha2, hpa])]

theorem getD_unchanged (db : DB) (cid : Nat) (c : InterviewCandidate)
    (hc : findCand db cid = some c) :
    c.timeline <+: ((findCand db cid).getD c).timeline ∧
    c.communications <+: ((findCand db cid).getD c).communications := by
  rw [hc]
  exact ⟨List.prefix_rfl, List.prefix_rfl⟩

theorem getD_append_grows (db : DB) (cid : Nat) (c x : InterviewCandidate)
    (nid : Nat) (hc : findCand db cid = some c) :
    c.timeline <+:
      ((findCand { db with candidates := db.candidates ++ [x], nextId := nid } cid).getD c).timeline ∧
    c.communications <+:
      ((findCand { db with candidates := db.candidates ++ [x], nextId := nid } cid).getD c).communications := by
  have h2 : findCand { db with candidates := db.candidates ++ [x], nextId := nid } cid
      = some c := by
    unfold findCand at hc ⊢
    exact find?_append_of_some _ _ _ _ hc
  rw [h2]
  exact ⟨List.prefix_rfl, List.prefix_rfl⟩

theorem getD_replace_grows (db : DB) (cid cidOp : Nat)
    (c c0 c2 : InterviewCandidate)
    (hc : findCand db cid = some c) (h0 : findCand db cidOp = some c0)
    (hid : c2.id = c0.id)
    (htl : c0.timeline <+: c2.timeline)
    (hcm : c0.communications <+: c2.communications) :
    c.timeline <+:
      ((findCand { db with candidates := replaceCand db.candidates c2 } cid).getD c).timeline ∧
    c.communications <+:
      ((findCand { db with candidates := replaceCand db.candidates c2 } cid).getD c).communications := by
  have hre : findCand { db with candidates := replaceCand db.candidates c2 } cid
      = some (if c.id == c2.id then c2 else c) := by
    unfold findCand at hc ⊢
    exact find?_replace db.candidates cid c c2 hc
  rw [hre]
  rcases hcc : (c.id == c2.id) with _ | _
  · simp only [hcc, Bool.false_eq_true, if_false, Option.getD_some]
    exact ⟨List.prefix_rfl, List.prefix_rfl⟩
  · have e1 : c.id = c2.id := by simpa using hcc
    have e2 : c.id = cid := findCand_id db cid c hc
    have e3 : c0.id = cidOp := findCand_id db cidOp c0 h0
    have e4 : cid = cidOp := by rw [← e2, e1, hid, e3]
    have e5 : c = c0 := by
      rw [e4] at hc
      rw [hc] at h0
      exact Option.some.inj h0
    subst e5
    simp only [hcc, if_true, Option.getD_some]
    exact ⟨htl, hcm⟩

/-- C6: across every lifecycle operation the timeline and communications
sequences of every stored candidate only grow: tracking a candidate by
id through any operation, the previous entries are still present as a
prefix (same order, nothing removed or replaced).  Operations either
leave the store unchanged (all error paths, including the TypeError
paths of the update-based operations), append a new document, or replace
one candidate by a version whose timeline and communications extend the
old ones. -/
theorem audit_logs_monotone (db : DB) (op : Op) (now : Int) (cid : Nat)
    (c : InterviewCandidate) (hc : findCand db cid = some c) :
    c.timeline <+: ((findCand (step db op now).1 cid).getD c).timeline ∧
    c.communications <+: ((findCand (step db op now).1 cid).getD c).communications := by
  cases op with
  | createFromApplication appId userId =>
    simp only [step, createFromApplication]
    split
    · exact getD_unchanged db cid c hc
    · split
      · exact getD_unchanged db cid c hc
      · simp only [saveNew]
        split
        · exact getD_append_grows db cid c _ _ hc
        · exact getD_unchanged db cid c hc
  | scheduleInterview cid2 d =>
    simp only [step, scheduleInterview]
    split
    · exact getD_unchanged db cid c hc
    · split
      · exact getD_unchanged db cid c hc
      · next c0 hfind =>
        simp only [saveExisting, preSave_false]
        split
        · exact getD_replace_grows db cid cid2 c c0 (schedCand c0 d now) hc hfind
            rfl (List.prefix_append _ _) List.prefix_rfl
        · exact getD_unchanged db cid c hc
  | updateInterviewFeedback cid2 idx fb r =>
    simp only [step, updateInterviewFeedback]
    split
    · exact getD_unchanged db cid c hc
    · split
      · exact getD_unchanged db cid c hc
      · next c0 hfind =>
        split
        · exact getD_replace_grows db cid cid2 c c0 (feedbackCand c0 idx fb r) hc
            hfind rfl List.prefix_rfl List.prefix_rfl
        · exact getD_unchanged db cid c hc
  | updateStage cid2 s userId =>
    simp only [step, updateStage]
    split
    · exact getD_unchanged db cid c hc
    · split
      · exact getD_unchanged db cid c hc
      · next c0 hfind =>
        simp only [saveExisting]
        split
        · refine getD_replace_grows db cid cid2 c c0
            (preSave (stageCand c0 s userId now) (s != c0.currentStage) now) hc hfind
            ?_ ?_ ?_
          · rw [preSave_id]
            rfl
          · have hmid := preSave_timeline_grows (stageCand c0 s userId now)
              (s != c0.currentStage) now
            have hpre : c0.timeline <+: (stageCand c0 s userId now).timeline := by
              show c0.timeline <+: c0.timeline ++ _
              exact List.prefix_append _ _
            exact hpre.trans hmid
          · rw [preSave_communications]
            exact List.prefix_rfl
        · exact getD_unchanged db cid c hc
  | makeDecision cid2 dec notes userId =>
    simp only [step, makeDecision]
    split
    · exact getD_unchanged db cid c hc
    · split
      · exact getD_unchanged db cid c hc
      · next c0 hfind =>
        simp only [saveExisting, preSave_false]
        split
        · exact getD_replace_grows db cid cid2 c c0
            (decisionCand c0 dec notes userId now) hc hfind rfl
            (List.prefix_append _ _) List.prefix_rfl
        · exact getD_unchanged db cid c hc
  | addCommunication cid2 d userId =>
    simp only [step, addCommunication]
    split
    · exact getD_unchanged db cid c hc
    · split
      · exact getD_unchanged db cid c hc
      · next c0 hfind =>
        exact getD_replace_grows db cid cid2 c c0 (candWithComm c0 d userId now) hc
          hfind rfl List.prefix_rfl (List.prefix_append _ _)
  | updateOverallRating cid2 r =>
    simp only [step, updateOverallRating]
    split
    · exact getD_unchanged db cid c hc
    · exact getD_unchanged db cid c hc
  | updateSkillsAssessment cid2 d =>
    simp only [step, updateSkillsAssessment]
    split
    · exact getD_unchanged db cid c hc
    · exact getD_unchanged db cid c hc
  | createOffer cid2 d =>
    simp only [step, createOffer]
    split
    · exact getD_unchanged db cid c hc
    · split
      · exact getD_unchanged db cid c hc
      · split
        · exact getD_unchanged db cid c hc
        · exact getD_unchanged db cid c hc
  | updateOfferStatus cid2 s =>
    simp only [step, updateOfferStatus]
    split
    · exact getD_unchanged db cid c hc
    · exact getD_unchanged db cid c hc

/-- C6, witness at a concrete store: tracking the screening candidate
through an updateStage operation, its old timeline and communications
are still a prefix of the stored ones. -/
theorem audit_logs_monotone_witness :
    cand0.timeline <+:
      ((findCand (step db0 (Op.updateStage 0 "offer" (some "U9")) 5).1 0).getD cand0).timeline ∧
    cand0.communications <+:
      ((findCand (step db0 (Op.updateStage 0 "offer" (some "U9")) 5).1 0).getD cand0).communications :=
  audit_logs_monotone db0 (Op.updateStage 0 "offer" (some "U9")) 5 0 cand0 rfl

end PaydayServer
